import Mathlib

set_option maxRecDepth 65536
set_option maxHeartbeats 2000000

/-!
Shallow embedding of a small HTTP file server (src/lib.rs, src/main.rs of
zhenyanovikov/rust-http-server).

Bytes and Unicode scalar values are modelled as `Nat`; Rust strings are lists
of scalar values; the TCP stream is a pure source of input bytes and a pure
sink for written responses; the filesystem is an oracle structure.
-/

/-- Code points of a string literal; for ASCII text these are also its bytes. -/
def ascii (s : String) : List Nat := s.data.map Char.toNat

/-- Rust `char::is_whitespace` (the Unicode White_Space property). -/
def isRustWhitespace (c : Nat) : Bool :=
  c = 9 || c = 10 || c = 11 || c = 12 || c = 13 || c = 32 || c = 133 || c = 160 ||
  c = 5760 || (8192 ≤ c && c ≤ 8202) || c = 8232 || c = 8233 || c = 8239 ||
  c = 8287 || c = 12288

/-- Rust `str::trim`: drop whitespace from both ends. -/
def trim (l : List Nat) : List Nat :=
  ((l.dropWhile isRustWhitespace).reverse.dropWhile isRustWhitespace).reverse

/-- Strip the carriage return ending a newline-terminated line;
`cur` is the line accumulated in reverse. -/
def finishLine (cur : List Nat) : List Nat :=
  match cur with
  | 13 :: rest => rest.reverse
  | _ => cur.reverse

/-- Accumulator loop for Rust `str::lines` (`cur` holds the current line reversed). -/
def linesAux : List Nat → List Nat → List (List Nat)
  | cur, [] => if cur.isEmpty then [] else [cur.reverse]
  | cur, c :: rest =>
    if c = 10 then finishLine cur :: linesAux [] rest
    else linesAux (c :: cur) rest

/-- Rust `str::lines`: lines are split at \n or \r\n, the final line ending is
optional, and a final segment without a terminating \n keeps a trailing \r. -/
def rustLines (s : List Nat) : List (List Nat) := linesAux [] s

/-- Accumulator loop for Rust `str::split` with a one-character pattern. -/
def splitSepAux (sep : Nat) : List Nat → List Nat → List (List Nat)
  | cur, [] => [cur.reverse]
  | cur, c :: rest =>
    if c = sep then cur.reverse :: splitSepAux sep [] rest
    else splitSepAux sep (c :: cur) rest

/-- Rust `str::split(sep)`: n separator occurrences yield n+1 pieces, empty
pieces included. -/
def splitSep (sep : Nat) (s : List Nat) : List (List Nat) := splitSepAux sep [] s

/-- Accumulator loop for `splitFirst` (`acc` holds the scanned part reversed). -/
def splitFirstAux (sep : Nat) : List Nat → List Nat → Option (List Nat × List Nat)
  | _, [] => none
  | acc, c :: rest =>
    if c = sep then some (acc.reverse, rest) else splitFirstAux sep (c :: acc) rest

/-- Rust `str::splitn(2, sep)`, as used on header lines: `some (before, after)`
around the first separator, `none` when the string contains no separator
(exactly the case in which `parts.len() != 2` in the source). -/
def splitFirst (sep : Nat) (s : List Nat) : Option (List Nat × List Nat) :=
  splitFirstAux sep [] s

/-- Rust `HashMap::insert`: overwrite the stored value when the key is present. -/
def hmInsert (m : List (List Nat × List Nat)) (k v : List Nat) :
    List (List Nat × List Nat) :=
  match m with
  | [] => [(k, v)]
  | (k', v') :: rest => if k' = k then (k, v) :: rest else (k', v') :: hmInsert rest k v

/-- Rust `HashMap::get`. -/
def hmGet (m : List (List Nat × List Nat)) (k : List Nat) : Option (List Nat) :=
  match m with
  | [] => none
  | (k', v') :: rest => if k' = k then some v' else hmGet rest k

/-- Decode the one well-formed UTF-8 sequence led by byte `b0` and continued in
`rest` (RFC 3629 table): the scalar value and the remaining bytes, or `none`
when the bytes at this position are ill-formed. -/
def utf8Step (b0 : Nat) (rest : List Nat) : Option (Nat × List Nat) :=
  if b0 < 128 then some (b0, rest)
  else if 194 ≤ b0 ∧ b0 ≤ 223 then
    match rest with
    | b1 :: rest1 =>
      if 128 ≤ b1 ∧ b1 ≤ 191 then some ((b0 - 192) * 64 + (b1 - 128), rest1) else none
    | [] => none
  else if 224 ≤ b0 ∧ b0 ≤ 239 then
    match rest with
    | b1 :: b2 :: rest2 =>
      if ((if b0 = 224 then 160 else 128) ≤ b1 ∧ b1 ≤ (if b0 = 237 then 159 else 191))
          ∧ (128 ≤ b2 ∧ b2 ≤ 191) then
        some ((b0 - 224) * 4096 + (b1 - 128) * 64 + (b2 - 128), rest2)
      else none
    | _ => none
  else if 240 ≤ b0 ∧ b0 ≤ 244 then
    match rest with
    | b1 :: b2 :: b3 :: rest3 =>
      if ((if b0 = 240 then 144 else 128) ≤ b1 ∧ b1 ≤ (if b0 = 244 then 143 else 191))
          ∧ (128 ≤ b2 ∧ b2 ≤ 191) ∧ (128 ≤ b3 ∧ b3 ≤ 191) then
        some ((b0 - 240) * 262144 + (b1 - 128) * 4096 + (b2 - 128) * 64 + (b3 - 128), rest3)
      else none
    | _ => none
  else none

/-- Scalar loop for `utf8Decode`; `acc` holds decoded scalars reversed, and the
fuel argument is initialised to the list length, which is always sufficient
because each `utf8Step` consumes at least one byte. -/
def utf8DecodeFuel : Nat → List Nat → List Nat → Option (List Nat)
  | _, acc, [] => some acc.reverse
  | 0, _, _ :: _ => none
  | fuel + 1, acc, b0 :: rest0 =>
    match utf8Step b0 rest0 with
    | none => none
    | some cr => utf8DecodeFuel fuel (cr.1 :: acc) cr.2

/-- Decoder for well-formed UTF-8: `String::from_utf8` succeeds exactly when
this returns `some`, and the resulting scalar values are these. -/
def utf8Decode (l : List Nat) : Option (List Nat) := utf8DecodeFuel l.length [] l

/-- The `[0; 1024]` read buffer after a single `read` that produced `input`:
the bytes read, then the untouched zero padding.  The whole 1024-byte buffer is
what `String::from_utf8(Vec::from(buffer))` converts. -/
def fillBuffer (input : List Nat) : List Nat :=
  input.take 1024 ++ List.replicate (1024 - input.length) 0

/-- The request record of src/lib.rs (the stream handle is modelled outside it). -/
structure Request where
  method : List Nat
  path : List Nat
  headers : List (List Nat × List Nat)
  response_code : Nat
  deriving DecidableEq

/-- A freshly constructed request, fields at their initial values. -/
def emptyRequest : Request :=
  { method := [], path := [], headers := [], response_code := 0 }

/-- Header-line loop of `Request::parse_request`: split each line at the first
colon, skip lines without a colon, store the trimmed value under the raw key. -/
def parseHeaders : List (List Nat) → List (List Nat × List Nat) → List (List Nat × List Nat)
  | [], m => m
  | l :: rest, m =>
    match splitFirst 58 l with
    | none => parseHeaders rest m
    | some kv => parseHeaders rest (hmInsert m kv.1 (trim kv.2))

/-- The request-line step of `Request::parse_request`: split the first line on
single spaces; with exactly 3 tokens take method and path (the version token is
bound and discarded) and go on to the header lines, otherwise return with all
fields untouched. -/
def parseFirstLine (firstLine : List Nat) (rest : List (List Nat)) : Request :=
  match splitSep 32 firstLine with
  | [m, p, _v] =>
    { method := m, path := p, headers := parseHeaders rest [], response_code := 0 }
  | _ => emptyRequest

/-- `Request::parse_request` after a successful UTF-8 conversion of the whole
1024-byte buffer: the emptiness check, then lines. -/
def parseBuffer (buffer : List Nat) : Request :=
  if buffer = [] then emptyRequest
  else
    match rustLines buffer with
    | [] => emptyRequest
    | firstLine :: rest => parseFirstLine firstLine rest

/-- `Request::parse_request` on the bytes a single read produced: `none` models
the propagated `FromUtf8Error`; otherwise the parsed request. -/
def parse_request (input : List Nat) : Option Request :=
  match utf8Decode (fillBuffer input) with
  | none => none
  | some buffer => some (parseBuffer buffer)

/-- `http::StatusCode::from_u16`: succeeds exactly on codes in [100, 1000). -/
def statusFromU16 (code : Nat) : Option Nat :=
  if 100 ≤ code ∧ code < 1000 then some code else none

/-- A chunk-stream element: declared size (`in_chunk_bytes`, the hex-prefixed
length the loop writes) and the chunk's bytes (`data[offset..offset + in_chunk_bytes]`). -/
def BYTES_PER_CHUNK : Nat := 500

/-- The chunk loop of `Request::response`, one `(in_chunk_bytes, chunk)` pair per
iteration, in iteration order; the terminal zero-size marker is not included. -/
def chunkPieces (data : List Nat) : List (Nat × List Nat) :=
  let chunks := data.length / BYTES_PER_CHUNK +
    (if data.length % BYTES_PER_CHUNK > 0 then 1 else 0)
  (List.range chunks).map (fun chunk_num =>
    let in_chunk_bytes :=
      if chunk_num = chunks - 1 then data.length % BYTES_PER_CHUNK else BYTES_PER_CHUNK
    (in_chunk_bytes, (data.drop (chunk_num * BYTES_PER_CHUNK)).take in_chunk_bytes))

/-- A hexadecimal digit character, lowercase as in Rust `format!` with `:x`. -/
def hexDigit (n : Nat) : Nat := if n < 10 then 48 + n else 87 + n

/-- Digit loop for `toHex` (first argument is fuel, always sufficient). -/
def toHexAux : Nat → Nat → List Nat
  | 0, _ => []
  | _ + 1, 0 => []
  | fuel + 1, n + 1 => toHexAux fuel ((n + 1) / 16) ++ [hexDigit ((n + 1) % 16)]

/-- Rust `format!` with the `:x` spec: lowercase hexadecimal, `"0"` for zero. -/
def toHex (n : Nat) : List Nat := if n = 0 then [48] else toHexAux n n

/-- All body bytes `Request::response` writes after the header block: for each
chunk its size in hex, CRLF, the chunk bytes, CRLF; then the terminal
`0CRLFCRLF` marker. -/
def chunkedBody (data : List Nat) : List Nat :=
  ((chunkPieces data).map (fun pc => toHex pc.1 ++ [13, 10] ++ pc.2 ++ [13, 10])).flatten ++
    [48, 13, 10, 13, 10]

/-- What a successful `Request::response` call sends, at the status/payload
level of abstraction (the wire body bytes are `chunkedBody data`). -/
structure SentResponse where
  code : Nat
  data : List Nat
  deriving DecidableEq

/-- `Request::response`: fails (before writing anything) when
`StatusCode::from_u16(code)` fails; otherwise records the code on the request
and emits the response. -/
def respond (req : Request) (code : Nat) (data : List Nat) :
    Option (Request × SentResponse) :=
  match statusFromU16 code with
  | none => none
  | some c => some ({ req with response_code := c }, { code := c, data := data })

/-- Outcome of `fs::metadata` when it succeeds: `is_dir`, `is_file`, or neither
(special files; `fs::metadata` follows symlinks). -/
inductive Metadata
  | dir
  | file
  | other
  deriving DecidableEq

/-- Filesystem oracle: `none` models the `Err` outcome of the corresponding
`std::fs` call; `read_dir` entries are `(full path, bare file name)` pairs as
produced by `DirEntry::path` and `DirEntry::file_name`. -/
structure Fs where
  metadata : List Nat → Option Metadata
  read_dir : List Nat → Option (List (List Nat × List Nat))
  readFile : List Nat → Option (List Nat)

/-- One appended `<a href="...">...</a><br>` fragment of `dir_navigation_page`. -/
def linkHtml (e : List Nat × List Nat) : List Nat :=
  ascii "<a href=\"" ++ e.1 ++ ascii "\">" ++ e.2 ++ ascii "</a><br>"

/-- `dir_navigation_page`: the `for_each`/`push_str` loop over the entries, then
the surrounding HTML shell. -/
def dir_navigation_page (dir_name : List Nat) (entries : List (List Nat × List Nat)) :
    List Nat :=
  let file_list := entries.foldl (fun s f => s ++ linkHtml f) []
  ascii "<html><body><h1>" ++ dir_name ++ ascii "</h1><br>" ++ file_list ++
    ascii "</body></html>"

/-- Result of `Server::handle_connection`: `ok` carries the request as mutated
and the responses sent on the stream (in order); `err` is a returned `Err`;
`panicked` is the `unwrap` panic on a failed `fs::read_dir`. -/
inductive HandleOutcome
  | ok (req : Request) (sent : List SentResponse)
  | err
  | panicked
  deriving DecidableEq

/-- `Server::handle_connection` for one request cycle, given the filesystem
oracle and the bytes the single stream read produced. -/
def handle_connection (fs : Fs) (input : List Nat) : HandleOutcome :=
  match parse_request input with
  | none =>
    match respond emptyRequest 400 [] with
    | some rs => .ok rs.1 [rs.2]
    | none => .err
  | some req =>
    if req.method = [] then .ok req []
    else if ¬ (req.method = ascii "GET") then
      match respond req 501 (ascii "Not Implemented") with
      | some rs => .ok rs.1 [rs.2]
      | none => .err
    else
      match fs.metadata req.path with
      | some Metadata.dir =>
        match fs.read_dir req.path with
        | none => .panicked
        | some entries =>
          match respond req 200 (dir_navigation_page req.path entries) with
          | some rs => .ok rs.1 [rs.2]
          | none => .err
      | some Metadata.file =>
        match fs.readFile req.path with
        | some content =>
          match respond req 200 content with
          | some rs => .ok rs.1 [rs.2]
          | none => .err
        | none =>
          match respond req 404 (ascii "Not Found") with
          | some rs => .ok rs.1 [rs.2]
          | none => .err
      | some Metadata.other => .ok req []
      | none =>
        match respond req 404 (ascii "Not Found") with
        | some rs => .ok rs.1 [rs.2]
        | none => .err

/-- Fate of the worker loop in `Server::start` after one cycle: `closed` when
the loop ends cleanly (empty-method break, or a returned `Err` after the error
log), `looped` when the request line is logged and the loop continues with the
same stream, `panicked` when an `unwrap` panics and kills the thread. -/
inductive CycleOutcome
  | closed
  | looped (method : List Nat) (path : List Nat) (code : Nat)
  | panicked
  deriving DecidableEq

/-- One iteration of the worker loop in `Server::start`: run
`handle_connection`, break on the empty-method sentinel, otherwise log the line
whose status text is `StatusCode::from_u16(req.response_code).unwrap()`. -/
def connection_cycle (fs : Fs) (input : List Nat) : CycleOutcome :=
  match handle_connection fs input with
  | .err => .closed
  | .panicked => .panicked
  | .ok req _ =>
    if req.method = [] then .closed
    else
      match statusFromU16 req.response_code with
      | none => .panicked
      | some c => .looped req.method req.path c

/-- Oracle for a filesystem on which every path is missing. -/
def fsEmpty : Fs :=
  { metadata := fun _ => none, read_dir := fun _ => none, readFile := fun _ => none }

/-- Oracle for a filesystem on which every path is a special file (neither
directory nor regular file). -/
def fsOther : Fs :=
  { metadata := fun _ => some Metadata.other, read_dir := fun _ => none,
    readFile := fun _ => none }

/-- Oracle for a filesystem on which every path has directory metadata but
enumeration fails (for example a directory without read permission). -/
def fsDirFail : Fs :=
  { metadata := fun _ => some Metadata.dir, read_dir := fun _ => none,
    readFile := fun _ => none }

/-- The token list of the buffer's first line (empty when there is no line),
an observer for the request-line split of `parse_request`. -/
def firstLineWords (cps : List Nat) : List (List Nat) :=
  match rustLines cps with
  | [] => []
  | firstLine :: _ => splitSep 32 firstLine

/-- Header semantics in the spec's words: the stored value for a raw key is the
whitespace-trimmed remainder after the first colon of the last header line
whose part before its first colon is exactly (case-sensitively) that key;
lines without a colon are skipped and contribute nothing. -/
def specLastHeader (k : List Nat) : List (List Nat) → Option (List Nat)
  | [] => none
  | l :: rest =>
    match specLastHeader k rest with
    | some v => some v
    | none =>
      match splitFirst 58 l with
      | none => none
      | some kv => if kv.1 = k then some (trim kv.2) else none

/-- The directory listing in the spec's words: a minimal HTML shell whose h1 is
the directory path, followed by exactly one hyperlink per entry, the entry's
full path as target and its bare name as label. -/
def listingSpec (dir_name : List Nat) (entries : List (List Nat × List Nat)) : List Nat :=
  ascii "<html><body><h1>" ++ dir_name ++ ascii "</h1><br>" ++
    (entries.map linkHtml).flatten ++ ascii "</body></html>"

example : parse_request (ascii "GET /x HTTP/1.1\r\nHost: a\r\n\r\n") =
    some { method := ascii "GET", path := ascii "/x",
           headers := [(ascii "Host", ascii "a")], response_code := 0 } := by decide

example : connection_cycle fsEmpty (ascii "GET /x HTTP/1.1\r\n\r\n") =
    CycleOutcome.looped (ascii "GET") (ascii "/x") 404 := by decide

example : connection_cycle fsOther (ascii "GET /x HTTP/1.1\r\n\r\n") =
    CycleOutcome.panicked := by decide

theorem ascii_GET_ne_nil : ascii "GET" ≠ [] := by decide

theorem fillBuffer_length (input : List Nat) : (fillBuffer input).length = 1024 := by
  simp [fillBuffer]
  omega

theorem utf8Step_ascii (b : Nat) (rest : List Nat) (hb : b < 128) :
    utf8Step b rest = some (b, rest) := by
  simp [utf8Step, hb]

theorem utf8DecodeFuel_ascii (l : List Nat) (h : ∀ b ∈ l, b < 128) :
    ∀ (fuel : Nat) (acc : List Nat), l.length ≤ fuel →
      utf8DecodeFuel fuel acc l = some (acc.reverse ++ l) := by
  induction l with
  | nil =>
    intro fuel acc _
    cases fuel <;> simp [utf8DecodeFuel]
  | cons b rest ih =>
    intro fuel acc hf
    cases fuel with
    | zero => simp at hf
    | succ f =>
      have hb : b < 128 := h b (by simp)
      simp only [utf8DecodeFuel, utf8Step_ascii b rest hb]
      rw [ih (fun x hx => h x (by simp [hx])) f (b :: acc) (by simpa using hf)]
      simp

theorem utf8Decode_all_ascii (l : List Nat) (h : ∀ b ∈ l, b < 128) :
    utf8Decode l = some l := by
  rw [utf8Decode, utf8DecodeFuel_ascii l h l.length [] (Nat.le_refl _)]
  rfl

theorem linesAux_no_nl (s : List Nat) (h : ∀ c ∈ s, c ≠ 10) :
    ∀ cur : List Nat, linesAux cur s =
      if cur.reverse ++ s = [] then [] else [cur.reverse ++ s] := by
  induction s with
  | nil =>
    intro cur
    rw [show linesAux cur [] = if cur.isEmpty then [] else [cur.reverse] from rfl]
    simp [List.isEmpty_iff]
  | cons c rest ih =>
    intro cur
    have hc : c ≠ 10 := h c (by simp)
    rw [linesAux.eq_def]
    simp only [hc, if_false]
    rw [ih (fun x hx => h x (by simp [hx])) (c :: cur)]
    simp

theorem rustLines_no_nl (s : List Nat) (hne : s ≠ []) (h : ∀ c ∈ s, c ≠ 10) :
    rustLines s = [s] := by
  rw [rustLines, linesAux_no_nl s h []]
  simp [hne]

theorem splitSepAux_no_sep (sep : Nat) (s : List Nat) (h : ∀ c ∈ s, c ≠ sep) :
    ∀ cur : List Nat, splitSepAux sep cur s = [cur.reverse ++ s] := by
  induction s with
  | nil => intro cur; rw [show splitSepAux sep cur [] = [cur.reverse] from rfl]; simp
  | cons c rest ih =>
    intro cur
    have hc : c ≠ sep := h c (by simp)
    rw [splitSepAux.eq_def]
    simp only [hc, if_false]
    rw [ih (fun x hx => h x (by simp [hx])) (c :: cur)]
    simp

theorem splitSep_no_sep (sep : Nat) (s : List Nat) (h : ∀ c ∈ s, c ≠ sep) :
    splitSep sep s = [s] := by
  rw [splitSep, splitSepAux_no_sep sep s h []]
  rfl

theorem hmGet_hmInsert (m : List (List Nat × List Nat)) (k k' v : List Nat) :
    hmGet (hmInsert m k' v) k = if k' = k then some v else hmGet m k := by
  induction m with
  | nil => simp [hmInsert, hmGet]
  | cons e rest ih =>
    by_cases he : e.1 = k'
    · simp only [hmInsert, he, if_true, hmGet]
      by_cases hk : k' = k <;> simp [hk]
    · simp only [hmInsert, he, if_false, hmGet, ih]
      by_cases hk : e.1 = k
      · have : ¬ k' = k := fun hkk => he (hk.trans hkk.symm)
        simp [hk, this]
      · simp [hk]

theorem parseHeaders_lookup (ls : List (List Nat)) :
    ∀ (m : List (List Nat × List Nat)) (k : List Nat),
      hmGet (parseHeaders ls m) k =
        match specLastHeader k ls with
        | some v => some v
        | none => hmGet m k := by
  induction ls with
  | nil => intro m k; simp [parseHeaders, specLastHeader]
  | cons l rest ih =>
    intro m k
    rcases hs : splitFirst 58 l with _ | kv
    · rw [show parseHeaders (l :: rest) m = parseHeaders rest m from by
        simp [parseHeaders, hs]]
      rw [ih m k]
      rcases hrest : specLastHeader k rest with _ | v <;>
        simp [specLastHeader, hrest, hs]
    · rw [show parseHeaders (l :: rest) m = parseHeaders rest (hmInsert m kv.1 (trim kv.2))
        from by simp [parseHeaders, hs]]
      rw [ih (hmInsert m kv.1 (trim kv.2)) k]
      rcases hrest : specLastHeader k rest with _ | v
      · simp only [specLastHeader, hrest, hs, hmGet_hmInsert]
        by_cases hk : kv.1 = k <;> simp [hk]
      · simp [specLastHeader, hrest]

theorem foldl_linkHtml (entries : List (List Nat × List Nat)) :
    ∀ s : List Nat,
      entries.foldl (fun a f => a ++ linkHtml f) s = s ++ (entries.map linkHtml).flatten := by
  induction entries with
  | nil => intro s; simp
  | cons e rest ih => intro s; simp [ih, List.append_assoc]

theorem parseBuffer_no3 (cps : List Nat) (h3 : (firstLineWords cps).length ≠ 3) :
    parseBuffer cps = emptyRequest := by
  by_cases hc : cps = []
  · simp [parseBuffer, hc]
  · rw [parseBuffer, if_neg hc]
    rcases hl : rustLines cps with _ | ⟨f, rest⟩
    · rfl
    · show parseFirstLine f rest = emptyRequest
      have h3' : (splitSep 32 f).length ≠ 3 := by
        simpa [firstLineWords, hl] using h3
      rw [parseFirstLine.eq_def]
      rcases hw : splitSep 32 f with _ | ⟨a, _ | ⟨b, _ | ⟨c, _ | ⟨d, t⟩⟩⟩⟩ <;>
        first
          | (exact absurd (by rw [hw]; rfl) h3')
          | rfl

theorem parse_request_no3 (input : List Nat) (cps : List Nat)
    (h : utf8Decode (fillBuffer input) = some cps)
    (h3 : (firstLineWords cps).length ≠ 3) :
    parse_request input = some emptyRequest := by
  unfold parse_request
  rw [h]
  show some (parseBuffer cps) = some emptyRequest
  rw [parseBuffer_no3 cps h3]

theorem parseFirstLine_code (f : List Nat) (rest : List (List Nat)) :
    (parseFirstLine f rest).response_code = 0 := by
  rw [parseFirstLine.eq_def]
  rcases splitSep 32 f with _ | ⟨a, _ | ⟨b, _ | ⟨c, _ | ⟨d, t⟩⟩⟩⟩ <;> rfl

theorem parseBuffer_code (cps : List Nat) : (parseBuffer cps).response_code = 0 := by
  rw [parseBuffer.eq_def]
  by_cases hc : cps = []
  · simp [hc, emptyRequest]
  · rw [if_neg hc]
    rcases rustLines cps with _ | ⟨f, rest⟩
    · rfl
    · exact parseFirstLine_code f rest

theorem parse_request_code (input : List Nat) (req : Request)
    (h : parse_request input = some req) : req.response_code = 0 := by
  unfold parse_request at h
  rcases hd : utf8Decode (fillBuffer input) with _ | cps <;> rw [hd] at h
  · exact Option.noConfusion h
  · have h' : some (parseBuffer cps) = some req := h
    cases h'
    exact parseBuffer_code cps

theorem fillBuffer_nil_zero : ∀ b ∈ fillBuffer [], b = 0 := by
  intro b hb
  rw [show fillBuffer [] = List.replicate 1024 0 from rfl] at hb
  exact List.eq_of_mem_replicate hb

theorem parse_all_zero (input : List Nat) (hz : ∀ b ∈ fillBuffer input, b = 0) :
    parse_request input = some emptyRequest := by
  have hbuf : fillBuffer input = List.replicate 1024 0 :=
    List.eq_replicate_iff.mpr ⟨fillBuffer_length input, hz⟩
  have hdec : utf8Decode (fillBuffer input) = some (List.replicate 1024 0) := by
    rw [hbuf]
    exact utf8Decode_all_ascii _ (by
      intro b hb
      rw [List.eq_of_mem_replicate hb]
      decide)
  have hne : (List.replicate 1024 0 : List Nat) ≠ [] := by simp
  have hnl : ∀ c ∈ (List.replicate 1024 0 : List Nat), c ≠ 10 := by
    intro c hc
    rw [List.eq_of_mem_replicate hc]
    decide
  have hsp : ∀ c ∈ (List.replicate 1024 0 : List Nat), c ≠ 32 := by
    intro c hc
    rw [List.eq_of_mem_replicate hc]
    decide
  have hfw : firstLineWords (List.replicate 1024 0) = [List.replicate 1024 0] := by
    rw [firstLineWords.eq_def, rustLines_no_nl _ hne hnl]
    show splitSep 32 (List.replicate 1024 0) = [List.replicate 1024 0]
    exact splitSep_no_sep 32 _ hsp
  exact parse_request_no3 input _ hdec (by rw [hfw]; decide)

/-- C1: the claim fails on the code, which is the bug here: for a payload of
exactly 500 bytes the loop declares the single (= last) chunk's size as
`500 % 500 = 0` and slices zero payload bytes, so the declared sizes sum to 0
instead of the payload length, the concatenated chunk bytes are empty instead
of the payload, and the wire body degenerates to a zero-size chunk followed by
the terminal marker.  The same loss occurs at every positive multiple of 500. -/
theorem C1_chunk_multiple_dropped :
    ((chunkPieces (List.replicate 500 97)).map Prod.fst).sum = 0 ∧
    ((chunkPieces (List.replicate 500 97)).map Prod.snd).flatten = [] ∧
    chunkedBody (List.replicate 500 97) = [48, 13, 10, 13, 10, 48, 13, 10, 13, 10] := by
  refine ⟨by decide, by decide, by decide⟩

/-- For payload lengths that are not positive multiples of 500 the framing is
as the spec claims, on this example: a 501-byte payload yields a full 500-byte
chunk and a 1-byte chunk, sizes summing to the payload length and bytes
concatenating to the payload. -/
theorem chunkPieces_ok_501 :
    ((chunkPieces (List.replicate 501 97)).map Prod.fst).sum = 501 ∧
    ((chunkPieces (List.replicate 501 97)).map Prod.snd).flatten = List.replicate 501 97 := by
  refine ⟨by decide, by decide⟩

/-- C2 (as stated, refuted): for the non-UTF-8 buffer beginning with byte 0xFF,
decode fails and a 400 is sent, but the connection does NOT stay open: the
request's method is still empty, so the worker loop breaks and the connection
closes instead of looping back for the next request. -/
theorem C2_counterexample :
    utf8Decode (fillBuffer [255]) = none ∧
    handle_connection fsEmpty [255] =
      HandleOutcome.ok { emptyRequest with response_code := 400 }
        [{ code := 400, data := [] }] ∧
    connection_cycle fsEmpty [255] = CycleOutcome.closed := by
  refine ⟨by decide, by decide, by decide⟩

/-- C2 (amended): for every request buffer whose bytes are not valid UTF-8,
decode fails and the dispatcher sends a 400 Bad Request response with an empty
body; the request's method is then still empty, so the worker loop breaks and
the connection closes rather than staying open. -/
theorem C2_bad_utf8_400_closes (fs : Fs) (input : List Nat)
    (h : utf8Decode (fillBuffer input) = none) :
    parse_request input = none ∧
    handle_connection fs input =
      HandleOutcome.ok { emptyRequest with response_code := 400 }
        [{ code := 400, data := [] }] ∧
    connection_cycle fs input = CycleOutcome.closed := by
  have hp : parse_request input = none := by
    unfold parse_request
    rw [h]
  refine ⟨hp, ?_, ?_⟩
  · simp [handle_connection, hp, respond, statusFromU16, emptyRequest]
  · simp [connection_cycle, handle_connection, hp, respond, statusFromU16, emptyRequest]

theorem C2_witness :
    parse_request [192] = none ∧
    handle_connection fsEmpty [192] =
      HandleOutcome.ok { emptyRequest with response_code := 400 }
        [{ code := 400, data := [] }] ∧
    connection_cycle fsEmpty [192] = CycleOutcome.closed :=
  C2_bad_utf8_400_closes fsEmpty [192] (by decide)

/-- C3 (as stated, refuted): on a filesystem where the path has directory
metadata but enumeration fails, a GET does not produce a 404 response and the
connection does not survive: the `unwrap` on `fs::read_dir` panics and the
worker thread dies. -/
theorem C3_counterexample :
    handle_connection fsDirFail (ascii "GET /locked HTTP/1.1\r\n\r\n") =
      HandleOutcome.panicked ∧
    connection_cycle fsDirFail (ascii "GET /locked HTTP/1.1\r\n\r\n") =
      CycleOutcome.panicked := by
  refine ⟨by decide, by decide⟩

/-- C3 (amended): for a parsed GET request, if the path's metadata lookup
fails, or the path is a regular file whose content read fails, the server
responds 404 with body "Not Found" and the connection survives to serve the
next request; if instead the path is a directory whose enumeration fails, the
worker panics on the unwrap, sends no response, and the connection dies. -/
theorem C3_notfound_404_dirfail_panics (fs : Fs) (input : List Nat) (req : Request)
    (h1 : parse_request input = some req) (h2 : req.method = ascii "GET") :
    ((fs.metadata req.path = none ∨
        (fs.metadata req.path = some Metadata.file ∧ fs.readFile req.path = none)) →
      handle_connection fs input =
        HandleOutcome.ok { req with response_code := 404 }
          [{ code := 404, data := ascii "Not Found" }] ∧
      connection_cycle fs input = CycleOutcome.looped req.method req.path 404) ∧
    ((fs.metadata req.path = some Metadata.dir ∧ fs.read_dir req.path = none) →
      handle_connection fs input = HandleOutcome.panicked ∧
      connection_cycle fs input = CycleOutcome.panicked) := by
  have hm : req.method ≠ [] := by
    rw [h2]
    decide
  constructor
  · rintro (hmeta | ⟨hmeta, hread⟩)
    · constructor <;>
        simp [handle_connection, connection_cycle, h1, hm, h2, hmeta, respond, statusFromU16,
          ascii_GET_ne_nil]
    · constructor <;>
        simp [handle_connection, connection_cycle, h1, hm, h2, hmeta, hread, respond,
          statusFromU16, ascii_GET_ne_nil]
  · rintro ⟨hmeta, hdir⟩
    constructor <;>
      simp [handle_connection, connection_cycle, h1, hm, h2, hmeta, hdir, ascii_GET_ne_nil]

theorem C3_witness :
    handle_connection fsEmpty (ascii "GET /gone HTTP/1.1\r\n\r\n") =
      HandleOutcome.ok
        { method := ascii "GET", path := ascii "/gone", headers := [], response_code := 404 }
        [{ code := 404, data := ascii "Not Found" }] ∧
    connection_cycle fsEmpty (ascii "GET /gone HTTP/1.1\r\n\r\n") =
      CycleOutcome.looped (ascii "GET") (ascii "/gone") 404 :=
  (C3_notfound_404_dirfail_panics fsEmpty (ascii "GET /gone HTTP/1.1\r\n\r\n")
    { method := ascii "GET", path := ascii "/gone", headers := [], response_code := 0 }
    (by decide) rfl).1 (Or.inl rfl)

/-- C4: whenever the read yields zero bytes, or the buffer is all zero padding
once read, or the first line does not split on single spaces into exactly 3
tokens, decode succeeds with the empty-method sentinel request, the dispatcher
sends no response, and the worker loop breaks, closing the connection. -/
theorem C4_sentinel_closes (fs : Fs) (input : List Nat)
    (h : input = [] ∨ (∀ b ∈ fillBuffer input, b = 0) ∨
      ∃ cps, utf8Decode (fillBuffer input) = some cps ∧ (firstLineWords cps).length ≠ 3) :
    parse_request input = some emptyRequest ∧
    handle_connection fs input = HandleOutcome.ok emptyRequest [] ∧
    connection_cycle fs input = CycleOutcome.closed := by
  have hp : parse_request input = some emptyRequest := by
    rcases h with h0 | hz | ⟨cps, hcps, h3⟩
    · subst h0
      exact parse_all_zero [] fillBuffer_nil_zero
    · exact parse_all_zero input hz
    · exact parse_request_no3 input cps hcps h3
  refine ⟨hp, ?_, ?_⟩
  · simp [handle_connection, hp, emptyRequest]
  · simp [connection_cycle, handle_connection, hp, emptyRequest]

theorem C4_witness :
    parse_request [] = some emptyRequest ∧
    handle_connection fsEmpty [] = HandleOutcome.ok emptyRequest [] ∧
    connection_cycle fsEmpty [] = CycleOutcome.closed :=
  C4_sentinel_closes fsEmpty [] (Or.inl rfl)

/-- C5: for every buffer whose first line splits on single spaces into exactly
3 tokens, decode produces a request whose method is the first token and whose
path is the second token verbatim; the third (version) token is bound and
discarded and does not occur in the result. -/
theorem C5_first_line_tokens (input cps firstLine m p v : List Nat)
    (rest : List (List Nat))
    (h1 : utf8Decode (fillBuffer input) = some cps)
    (h2 : rustLines cps = firstLine :: rest)
    (h3 : splitSep 32 firstLine = [m, p, v]) :
    parse_request input =
      some { method := m, path := p, headers := parseHeaders rest [],
             response_code := 0 } := by
  have hne : cps ≠ [] := by
    intro hc
    rw [hc] at h2
    exact List.noConfusion h2
  unfold parse_request
  rw [h1]
  show some (parseBuffer cps) = _
  rw [parseBuffer.eq_def, if_neg hne, h2]
  show some (parseFirstLine firstLine rest) = _
  rw [parseFirstLine.eq_def, h3]

theorem C5_witness :
    parse_request (ascii "GET /index.html HTTP/1.0\r\nAccept: */*\r\n\r\n") =
      some { method := ascii "GET", path := ascii "/index.html",
             headers := parseHeaders
               (rustLines (fillBuffer (ascii "GET /index.html HTTP/1.0\r\nAccept: */*\r\n\r\n"))).tail [],
             response_code := 0 } :=
  C5_first_line_tokens (ascii "GET /index.html HTTP/1.0\r\nAccept: */*\r\n\r\n")
    (fillBuffer (ascii "GET /index.html HTTP/1.0\r\nAccept: */*\r\n\r\n"))
    (ascii "GET /index.html HTTP/1.0") (ascii "GET") (ascii "/index.html") (ascii "HTTP/1.0")
    (rustLines (fillBuffer (ascii "GET /index.html HTTP/1.0\r\nAccept: */*\r\n\r\n"))).tail
    (by decide) (by decide) (by decide)

/-- C6: every parsed request whose method is non-empty and not exactly the
string "GET" (compared case-sensitively) gets a 501 Not Implemented response
with body "Not Implemented", and the connection stays open: the cycle logs the
request line and loops back for the next request. -/
theorem C6_non_get_method_501 (fs : Fs) (input : List Nat) (req : Request)
    (h1 : parse_request input = some req)
    (h2 : req.method ≠ []) (h3 : req.method ≠ ascii "GET") :
    handle_connection fs input =
      HandleOutcome.ok { req with response_code := 501 }
        [{ code := 501, data := ascii "Not Implemented" }] ∧
    connection_cycle fs input = CycleOutcome.looped req.method req.path 501 := by
  constructor <;>
    simp [handle_connection, connection_cycle, h1, h2, h3, respond, statusFromU16]

theorem C6_witness :
    handle_connection fsEmpty (ascii "DELETE /a.txt HTTP/1.1\r\n\r\n") =
      HandleOutcome.ok
        { method := ascii "DELETE", path := ascii "/a.txt", headers := [],
          response_code := 501 }
        [{ code := 501, data := ascii "Not Implemented" }] ∧
    connection_cycle fsEmpty (ascii "DELETE /a.txt HTTP/1.1\r\n\r\n") =
      CycleOutcome.looped (ascii "DELETE") (ascii "/a.txt") 501 :=
  C6_non_get_method_501 fsEmpty (ascii "DELETE /a.txt HTTP/1.1\r\n\r\n")
    { method := ascii "DELETE", path := ascii "/a.txt", headers := [], response_code := 0 }
    (by decide) (by decide) (by decide)

/-- C7: looking a raw key up in the header map decode builds returns exactly
what the spec describes: the whitespace-trimmed remainder after the first colon
of the last header line whose part before its first colon equals the key
exactly — so keys are raw and case-sensitive (differently-cased keys are
distinct), a later line with the same raw key silently overwrites an earlier
one, and lines without a colon are skipped without error and contribute
nothing. -/
theorem C7_header_semantics (ls : List (List Nat)) (k : List Nat) :
    hmGet (parseHeaders ls []) k = specLastHeader k ls := by
  rw [parseHeaders_lookup ls [] k]
  rcases h : specLastHeader k ls with _ | v <;> simp [hmGet]

/-- C8: the rendered directory listing body is exactly the spec's shape: a
minimal HTML shell whose h1 contains the directory path, followed by one
hyperlink per direct child entry, each link's target being the entry's full
path and its label the entry's bare file name. -/
theorem C8_dir_listing_shape (dir_name : List Nat)
    (entries : List (List Nat × List Nat)) :
    dir_navigation_page dir_name entries = listingSpec dir_name entries := by
  simp [dir_navigation_page, listingSpec, foldl_linkHtml]

/-- C9: a GET for a path whose metadata lookup succeeds but reports neither a
directory nor a regular file falls through both branches of the dispatch:
nothing is written to the stream (no status line, no body) and the request's
response_code is still its initial value 0. -/
theorem C9_other_metadata_silent (fs : Fs) (input : List Nat) (req : Request)
    (h1 : parse_request input = some req)
    (h2 : req.method = ascii "GET")
    (h3 : fs.metadata req.path = some Metadata.other) :
    handle_connection fs input = HandleOutcome.ok req [] ∧ req.response_code = 0 := by
  have hm : req.method ≠ [] := by
    rw [h2]
    decide
  refine ⟨?_, parse_request_code input req h1⟩
  simp [handle_connection, h1, hm, h2, h3, ascii_GET_ne_nil]

theorem C9_witness :
    handle_connection fsOther (ascii "GET /dev/tty HTTP/1.1\r\n\r\n") =
      HandleOutcome.ok
        { method := ascii "GET", path := ascii "/dev/tty", headers := [], response_code := 0 }
        [] ∧
    ({ method := ascii "GET", path := ascii "/dev/tty", headers := [],
       response_code := 0 } : Request).response_code = 0 :=
  C9_other_metadata_silent fsOther (ascii "GET /dev/tty HTTP/1.1\r\n\r\n")
    { method := ascii "GET", path := ascii "/dev/tty", headers := [], response_code := 0 }
    (by decide) rfl rfl

/-- C10: a request cycle that ends with no response sent but a non-empty
method leaves response_code at 0; the log line's conversion of 0 to a status
code fails, so the unwrap panics, terminating the worker thread and closing
the connection. -/
theorem C10_zero_code_log_panics (fs : Fs) (input : List Nat) (req : Request)
    (h1 : parse_request input = some req)
    (h2 : req.method ≠ [])
    (h3 : handle_connection fs input = HandleOutcome.ok req []) :
    req.response_code = 0 ∧ statusFromU16 req.response_code = none ∧
    connection_cycle fs input = CycleOutcome.panicked := by
  have hc := parse_request_code input req h1
  refine ⟨hc, ?_, ?_⟩
  · rw [hc]
    rfl
  · simp [connection_cycle, h3, h2, hc, statusFromU16]

theorem C10_witness :
    (Request.mk (ascii "GET") (ascii "/dev/sda") [] 0).response_code = 0 ∧
    statusFromU16 (Request.mk (ascii "GET") (ascii "/dev/sda") [] 0).response_code = none ∧
    connection_cycle fsOther (ascii "GET /dev/sda HTTP/1.1\r\n\r\n") =
      CycleOutcome.panicked :=
  C10_zero_code_log_panics fsOther (ascii "GET /dev/sda HTTP/1.1\r\n\r\n")
    (Request.mk (ascii "GET") (ascii "/dev/sda") [] 0) (by decide) (by decide) (by decide)
